import Mathlib

/-!
Shallow embedding of the ESLint rule `no-unused-styles`
(src/lib/rules/no-unused-styles.js) from eslint-plugin-react-with-styles.

The rule registers three visitor callbacks (CallExpression, MemberExpression,
ImportDeclaration) over a per-file mutable state consisting of
`cssFromWithStylesName`, `usedStyles` and `definedStyles`.  We model the
syntax-tree nodes the rule inspects as tagged variants, the state as a
structure, each visitor callback as a function from a visit event and state to
a new state (plus emitted diagnostics), and a whole file analysis as a left
fold of the callbacks over the list of visit events in document order (the
order in which the external tree walker fires the callbacks).

JavaScript semantics that the embedding reproduces faithfully:
  - truthiness of strings: `""`, `null` and `undefined` are falsy, so tests
    such as `if (style)` and `!!cssFromWithStylesName` succeed only on a
    present, nonempty string (modelled by `truthy` below);
  - `property.key.name` is `undefined` when the key node is not an
    Identifier (e.g. a string Literal), and `obj[undefined] = v` stores
    under the string key "undefined" (modelled by `definedKeyOf`);
  - plain objects used as string-keyed maps keep insertion order for
    non-integer-like keys, and re-assignment keeps the original position
    (modelled by association lists with `insertDefined`; all keys arising
    in this development are non-integer-like, so `Object.keys` order is
    insertion order);
  - reading `.type` of `null` (the `bodyNode.argument.type` access on a
    bare `return;`) throws a TypeError that aborts the whole analysis
    (modelled with `Except Unit`).

The two helper detectors `findRequireCSSFromWithStylesCallExpression` and
`findImportCSSFromWithStylesImportDeclaration` are external collaborators
(out of scope per the spec, and not under src/): each returns a local name
string or null.  Modelled from the spec: their result for a given node is
carried on the visit event itself (`requireDetect`, `importDetect`), which is
exactly the interface the rule consumes.
-/

set_option autoImplicit false

namespace NoUnusedStyles

/-- Syntax-tree expression nodes, as far as the rule inspects them.
`template n raw` is a TemplateLiteral with `n` interpolated expressions and
`raw` the raw text of its first quasi (a real template literal always has at
least one quasi).  Literal values are modelled as strings (the rule only
ever compares them with strings or uses them as object keys).  `otherNode`
stands for any node shape the rule does not inspect further. -/
inductive JNode where
  | identifier (name : String)
  | literal (value : String)
  | template (nExprs : Nat) (firstQuasiRaw : String)
  | thisE
  | member (obj : JNode) (prop : JNode)
  | otherNode
  deriving DecidableEq, Repr

/-- Source lines 8-27, `getBasicIdentifier(node)`: Identifier gives its name,
Literal gives its value, a TemplateLiteral with no interpolations gives the
raw text of its single quasi, everything else gives null. -/
def getBasicIdentifier : JNode → Option String
  | .identifier name => some name
  | .literal value => some value
  | .template nExprs firstQuasiRaw =>
      if nExprs ≠ 0 then none else some firstQuasiRaw
  | _ => none

/-- JavaScript string truthiness of a possibly-null string:
null/undefined and the empty string are falsy. -/
def truthy : Option String → Bool
  | some s => s ≠ ""
  | none => false

/-- The `.name` field of a node, as JavaScript sees it: present on
Identifier nodes, `undefined` on every other node shape. -/
def jsNodeName : JNode → Option String
  | .identifier name => some name
  | _ => none

/-- A property of an ObjectExpression, as far as the rule inspects it:
its `computed` flag, whether its `type` is "ExperimentalSpreadProperty",
and its key node. -/
structure SProperty where
  computed : Bool
  isSpread : Bool
  key : JNode
  deriving DecidableEq, Repr

/-- Source line 101, `definedStyles[property.key.name] = property`:
the stored key is `property.key.name`; when the key node is not an
Identifier, `.name` is `undefined` and JavaScript stores the entry under
the string "undefined". -/
def definedKeyOf (p : SProperty) : String :=
  (jsNodeName p.key).getD "undefined"

/-- A statement at the top level of the arrow-function block body:
either a ReturnStatement (whose `argument` is null for a bare `return;`)
or anything else. -/
inductive RetArg where
  | objectE (props : List SProperty)
  | otherA
  deriving DecidableEq, Repr

inductive Stmt where
  | ret (argument : Option RetArg)
  | otherS
  deriving DecidableEq, Repr

/-- The body of the arrow function passed to `withStyles`:
an ObjectExpression, a BlockStatement, or some other expression. -/
inductive ABody where
  | objectE (props : List SProperty)
  | block (stmts : List Stmt)
  | otherB
  deriving DecidableEq, Repr

/-- An argument of a call expression: an ArrowFunctionExpression with the
given body, or any other node. -/
inductive CallArg where
  | arrow (body : ABody)
  | otherArg
  deriving DecidableEq, Repr

/-- The per-file mutable state of the rule (source lines 42-45). -/
structure RuleState where
  cssFromWithStylesName : Option String
  usedStyles : List String
  definedStyles : List (String × SProperty)
  deriving DecidableEq, Repr

def initialState : RuleState :=
  { cssFromWithStylesName := none, usedStyles := [], definedStyles := [] }

/-- Source lines 47-49, `isCSSFound()`: `!!cssFromWithStylesName`
(JavaScript truthiness, so an empty-string name would count as not found). -/
def isCSSFound (s : RuleState) : Bool :=
  truthy s.cssFromWithStylesName

/-- `usedStyles[style] = true` on a plain object: set-insert of a string
key.  Membership is all that is ever read (`has(usedStyles, key)`). -/
def insertUsed (k : String) (l : List String) : List String :=
  if k ∈ l then l else l ++ [k]

/-- `definedStyles[key] = property` on a plain object: overwrite in place
if the key is present, otherwise append (JavaScript insertion-order
semantics for non-integer-like string keys). -/
def insertDefined (k : String) (p : SProperty) :
    List (String × SProperty) → List (String × SProperty)
  | [] => [(k, p)]
  | (k', p') :: rest =>
      if k' = k then (k, p) :: rest else (k', p') :: insertDefined k p rest

/-- Lookup in the association list modelling `definedStyles`. -/
def lookupDefined (k : String) : List (String × SProperty) → Option SProperty
  | [] => none
  | (k', p) :: rest => if k' = k then some p else lookupDefined k rest

/-- Source lines 86-102: iterate the properties of the styles object,
skipping computed properties and spread properties, and record every other
property under `property.key.name` (last write wins via object assignment). -/
def processProps (props : List SProperty) (d : List (String × SProperty)) :
    List (String × SProperty) :=
  props.foldl
    (fun d p =>
      if p.computed then d
      else if p.isSpread then d
      else insertDefined (definedKeyOf p) p d)
    d

/-- Source lines 75-82: the forEach over the block body.  A ReturnStatement
with a null `argument` makes `bodyNode.argument.type` throw a TypeError,
aborting the analysis (`Except.error`).  A return of an ObjectExpression
overwrites the accumulator; every other statement leaves it unchanged.
The scan does not stop at the first match. -/
def scanBody (acc : Option (List SProperty)) :
    List Stmt → Except Unit (Option (List SProperty))
  | [] => .ok acc
  | st :: rest =>
      match st with
      | .ret none => .error ()
      | .ret (some (.objectE props)) => scanBody (some props) rest
      | .ret (some .otherA) => scanBody acc rest
      | .otherS => scanBody acc rest

/-- Source lines 69-83: resolve the style-definitions object from the arrow
body: the body itself if it is an ObjectExpression; the last ObjectExpression
returned at the top level if it is a BlockStatement; nothing otherwise. -/
def findStylesObj : ABody → Except Unit (Option (List SProperty))
  | .objectE props => .ok (some props)
  | .block stmts => scanBody none stmts
  | .otherB => .ok none

/-- Source lines 66-68 plus the body resolution: the first argument must be
an ArrowFunctionExpression, otherwise no styles object is resolved. -/
def resolvedStylesObj (args : List CallArg) :
    Except Unit (Option (List SProperty)) :=
  match args.head? with
  | some (.arrow body) => findStylesObj body
  | _ => .ok none

/-- Source lines 66-103: the whole definition-extraction step of the
CallExpression handler, updating `definedStyles`. -/
def extractDefined (args : List CallArg) (d : List (String × SProperty)) :
    Except Unit (List (String × SProperty)) :=
  match resolvedStylesObj args with
  | .error e => .error e
  | .ok (some props) => .ok (processProps props d)
  | .ok none => .ok d

/-- A diagnostic: the anchor node passed to `context.report` (the defining
property) and the message string. -/
structure Diagnostic where
  anchor : SProperty
  message : String
  deriving DecidableEq, Repr

def mkUnusedMsg (k : String) : String :=
  "Style `" ++ k ++ "` is unused"

/-- Source lines 108-115: for every key of `definedStyles` not present in
`usedStyles`, report at the defining property.  `Object.keys` enumerates in
insertion order (keys here are non-integer-like), and `definedStyles[key]`
is the stored property node. -/
def unusedDiff (defined : List (String × SProperty)) (used : List String) :
    List Diagnostic :=
  defined.filterMap
    (fun kp =>
      if kp.1 ∈ used then none
      else some { anchor := kp.2, message := mkUnusedMsg kp.1 })

/-- A CallExpression visit, as far as the handler reads the node:
the result of the external require-detector on this node, `node.callee.name`
(none when the callee is not an Identifier), and the call arguments. -/
structure CallEvent where
  requireDetect : Option String
  calleeName : Option String
  args : List CallArg
  deriving DecidableEq, Repr

/-- Source lines 52-117: the CallExpression handler.  First the require
detector result is recorded unconditionally (no gate).  Then the gate: if
css has not been found, return.  Then the textual callee-name check, the
definition extraction, and the immediate unused diff over the whole
cumulative `definedStyles`. -/
def callHandler (ev : CallEvent) (s : RuleState) :
    Except Unit (RuleState × List Diagnostic) :=
  let s1 :=
    match ev.requireDetect with
    | some n => { s with cssFromWithStylesName := some n }
    | none => s
  if ¬ isCSSFound s1 then .ok (s1, [])
  else if ev.calleeName ≠ some "withStyles" then .ok (s1, [])
  else
    match extractDefined ev.args s1.definedStyles with
    | .error e => .error e
    | .ok defined =>
        .ok ({ s1 with definedStyles := defined },
             unusedDiff defined s1.usedStyles)

/-- A MemberExpression visit, as far as the handler reads the node:
`node.object`, `node.property`, `node.parent`, and whether
`node.parent.parent` is itself a MemberExpression.  In a real tree, when
`parent` is a member node its object is this node itself; the handler is a
function of exactly these reads. -/
structure MemberEvent where
  object : JNode
  property : JNode
  parent : JNode
  parentParentIsMember : Bool
  deriving DecidableEq, Repr

/-- Which exit the MemberExpression handler took; each constructor
corresponds to one `return` in source lines 119-174. -/
inductive MemberOutcome where
  | gateClosed
  | shapeA (added : Option String)
  | noStylesIdent
  | notStyles
  | parentNotMember
  | objectObjectNotThis
  | propsNameMismatch
  | noPropsNotMember
  | parentParentIsMember
  | shapeB (added : Option String)
  deriving DecidableEq, Repr

/-- `node.object.type === "Identifier" && node.object.name === "styles"`
(source line 126). -/
def isStylesObject : JNode → Bool
  | .identifier name => name = "styles"
  | _ => false

/-- Source line 152: `node.object.object && node.object.object.type !==
"ThisExpression"`.  Only member nodes have an `object` field; a missing
field is `undefined`, hence falsy. -/
def objectObjectNotThis : JNode → Bool
  | .member .thisE _ => false
  | .member _ _ => true
  | _ => false

def isMemberNode : JNode → Bool
  | .member _ _ => true
  | _ => false

/-- Source lines 119-174: the MemberExpression handler.  Returns which exit
was taken together with the updated state.  Shape A (object is an
Identifier literally named "styles") resolves the property and adds it to
`usedStyles` when truthy.  Shape B walks the props-mediated chain with the
checks in source order: parent must be a MemberExpression (line 147), the
object of the object (if any) must be a ThisExpression (line 152), the
object of the parent must resolve to "props" or, if unresolved, be a
MemberExpression (lines 157-163), the parent of the parent must not be a
MemberExpression (line 165); then the property of the parent is resolved
and added when truthy
(lines 170-173). -/
def memberHandler (ev : MemberEvent) (s : RuleState) :
    MemberOutcome × RuleState :=
  if ¬ isCSSFound s then (.gateClosed, s)
  else if isStylesObject ev.object then
    match getBasicIdentifier ev.property with
    | some st =>
        if st = "" then (.shapeA none, s)
        else (.shapeA (some st),
              { s with usedStyles := insertUsed st s.usedStyles })
    | none => (.shapeA none, s)
  else
    match getBasicIdentifier ev.property with
    | none => (.noStylesIdent, s)
    | some si =>
        if si ≠ "styles" then (.notStyles, s)
        else
          match ev.parent with
          | .member pobj pprop =>
              if objectObjectNotThis ev.object then (.objectObjectNotThis, s)
              else
                let propsIdentifier := getBasicIdentifier pobj
                if truthy propsIdentifier ∧ propsIdentifier ≠ some "props" then
                  (.propsNameMismatch, s)
                else if ¬ truthy propsIdentifier ∧ ¬ isMemberNode pobj then
                  (.noPropsNotMember, s)
                else if ev.parentParentIsMember then (.parentParentIsMember, s)
                else
                  match getBasicIdentifier pprop with
                  | some st =>
                      if st = "" then (.shapeB none, s)
                      else (.shapeB (some st),
                            { s with usedStyles := insertUsed st s.usedStyles })
                  | none => (.shapeB none, s)
          | _ => (.parentNotMember, s)

/-- Source lines 176-186: the ImportDeclaration handler, gated on css not
already found; `found` is the external import-detector result for this
node. -/
def importHandler (found : Option String) (s : RuleState) : RuleState :=
  if isCSSFound s then s
  else
    match found with
    | some n => { s with cssFromWithStylesName := some n }
    | none => s

/-- A visit event: one callback firing, in document order, with the
detector results for the visited node carried on the event. -/
inductive VisitEvent where
  | call (ev : CallEvent)
  | memberAccess (ev : MemberEvent)
  | importDecl (importDetect : Option String)
  deriving DecidableEq, Repr

/-- One visitor-callback firing on the current state. -/
def step (s : RuleState) : VisitEvent → Except Unit (RuleState × List Diagnostic)
  | .call ev => callHandler ev s
  | .memberAccess ev => .ok ((memberHandler ev s).2, [])
  | .importDecl found => .ok (importHandler found s, [])

/-- Run the visitor over a list of visit events in document order,
accumulating emitted diagnostics; a thrown TypeError aborts the whole
traversal. -/
def runEvents (s : RuleState) :
    List VisitEvent → Except Unit (RuleState × List Diagnostic)
  | [] => .ok (s, [])
  | e :: rest =>
      match step s e with
      | .error err => .error err
      | .ok (s', ds) =>
          match runEvents s' rest with
          | .error err => .error err
          | .ok (s'', ds') => .ok (s'', ds ++ ds')

/-- Analyze a file given its visit events, starting from a fresh state. -/
def analyzeResult (events : List VisitEvent) :
    Except Unit (RuleState × List Diagnostic) :=
  runEvents initialState events

def diagnosticsOf (events : List VisitEvent) : Except Unit (List Diagnostic) :=
  match analyzeResult events with
  | .error e => .error e
  | .ok (_, ds) => .ok ds

def finalStateOf (events : List VisitEvent) : Except Unit RuleState :=
  match analyzeResult events with
  | .error e => .error e
  | .ok (s, _) => .ok s

/-- Left-biased choice on options (specification helper). -/
def orO {α : Type} : Option α → Option α → Option α
  | some a, _ => some a
  | none, b => b

/-- Specification helper for the definition-extraction loop: the last
property of the list that is neither computed nor spread and whose stored
key (`definedKeyOf`) is `k`. -/
def lastDefining (k : String) : List SProperty → Option SProperty
  | [] => none
  | p :: rest =>
      match lastDefining k rest with
      | some q => some q
      | none =>
          if ¬ p.computed ∧ ¬ p.isSpread ∧ definedKeyOf p = k then some p
          else none

/-- Specification helper for the block-body scan: the properties of the
ObjectExpression returned by the last top-level return statement whose
argument is an ObjectExpression. -/
def lastReturnObj : List Stmt → Option (List SProperty)
  | [] => none
  | st :: rest =>
      match lastReturnObj rest with
      | some ps => some ps
      | none =>
          match st with
          | .ret (some (.objectE ps)) => some ps
          | _ => none

/-- The detector result carried on a visit event (none for member
accesses, which consult no detector). -/
def eventDetect : VisitEvent → Option String
  | .call ev => ev.requireDetect
  | .memberAccess _ => none
  | .importDecl found => found

/- Concrete scenario data used by the counterexamples and witnesses.
All of it mirrors source shapes named in the doc comments. -/

/-- The property `a: {}` of a style-definitions object. -/
def propA : SProperty := { computed := false, isSpread := false, key := .identifier "a" }

/-- The property `b: {}` of a style-definitions object. -/
def propB : SProperty := { computed := false, isSpread := false, key := .identifier "b" }

/-- A property whose key is the string literal "foo". -/
def propFooLit : SProperty := { computed := false, isSpread := false, key := .literal "foo" }

def diagA : Diagnostic := { anchor := propA, message := mkUnusedMsg "a" }

def diagB : Diagnostic := { anchor := propB, message := mkUnusedMsg "b" }

/-- An import declaration on which the import detector finds `css`
imported from the styling library under local name "css". -/
def impCss : VisitEvent := .importDecl (some "css")

/-- The call `withStyles(() => ({ a: {}, b: {} }))`. -/
def callAB : VisitEvent :=
  .call { requireDetect := none, calleeName := some "withStyles",
          args := [.arrow (.objectE [propA, propB])] }

/-- The call `withStyles(() => ({ a: {} }))`. -/
def callA : VisitEvent :=
  .call { requireDetect := none, calleeName := some "withStyles",
          args := [.arrow (.objectE [propA])] }

/-- The member access `styles.a` in a statement context. -/
def memA : VisitEvent :=
  .memberAccess { object := .identifier "styles", property := .identifier "a",
                  parent := .otherNode, parentParentIsMember := false }

/-- A state in which the css import has been detected and nothing else has
happened yet. -/
def sOpen : RuleState :=
  { cssFromWithStylesName := some "css", usedStyles := [], definedStyles := [] }

/-- The inner `.styles` access node of `this.props.styles.foo` as visited:
object is `this.props`, property is `styles`, the parent is the full
`this.props.styles.foo` member expression, and the parent sits in a
statement context (its own parent is not a member expression). -/
def evShapeB : MemberEvent :=
  { object := .member .thisE (.identifier "props"),
    property := .identifier "styles",
    parent := .member (.member (.member .thisE (.identifier "props"))
                               (.identifier "styles"))
                      (.identifier "foo"),
    parentParentIsMember := false }

/-- The inner `.styles` access node of `this.props.props.styles.foo` as
visited: object is `this.props.props`, property is `styles`, the parent is
the full `this.props.props.styles.foo` member expression in a statement
context. -/
def evShapeBBad : MemberEvent :=
  { object := .member (.member .thisE (.identifier "props")) (.identifier "props"),
    property := .identifier "styles",
    parent := .member (.member (.member (.member .thisE (.identifier "props"))
                                        (.identifier "props"))
                               (.identifier "styles"))
                      (.identifier "foo"),
    parentParentIsMember := false }

/-! ## Theorems -/

theorem orO_none_right {α : Type} (x : Option α) : orO x none = x := by
  cases x <;> rfl

theorem processProps_cons (p : SProperty) (rest : List SProperty)
    (d : List (String × SProperty)) :
    processProps (p :: rest) d =
      processProps rest
        (if p.computed then d
         else if p.isSpread then d
         else insertDefined (definedKeyOf p) p d) := rfl

theorem lookupDefined_insertDefined (k k' : String) (p : SProperty)
    (d : List (String × SProperty)) :
    lookupDefined k (insertDefined k' p d) =
      if k' = k then some p else lookupDefined k d := by
  induction d with
  | nil => simp [insertDefined, lookupDefined]
  | cons hd tl ih =>
      obtain ⟨k'', p''⟩ := hd
      by_cases h : k'' = k'
      · subst h
        by_cases h2 : k'' = k <;> simp [insertDefined, lookupDefined, h2]
      · by_cases h2 : k'' = k
        · subst h2
          simp [insertDefined, lookupDefined, h, ih]
          rw [if_neg (fun h3 => h h3.symm)]
        · simp [insertDefined, lookupDefined, h, h2, ih]

/-- Claim C1 (counterexample).  The claim states that a property whose key
is a string literal is recorded in `definedStyles` under the string produced
by the Key Resolution rule.  In the file `import { css } from
"...withStyles"; withStyles(() => ({ "foo": {} }))`, the key node
`.literal "foo"` resolves to "foo" under Key Resolution, but the code
stores the property under `property.key.name`, which is `undefined` for a
Literal key, so the entry lands under the string "undefined" and no entry
exists under "foo". -/
theorem C1_counterexample :
    getBasicIdentifier propFooLit.key = some "foo" ∧
    finalStateOf
        [impCss,
         .call { requireDetect := none, calleeName := some "withStyles",
                 args := [.arrow (.objectE [propFooLit])] }] =
      .ok { cssFromWithStylesName := some "css", usedStyles := [],
            definedStyles := [("undefined", propFooLit)] } ∧
    lookupDefined "foo" [("undefined", propFooLit)] = none := by
  refine ⟨rfl, rfl, rfl⟩

/-- Claim C1 (amended).  For every withStyles call whose extracted
style-definitions object is iterated, each non-computed, non-spread
property is recorded in `definedStyles` under `property.key.name` — the
identifier name for an identifier key, and the string "undefined" for a
literal or template-literal key (whose `.name` field is absent) — with the
last write winning on duplicate stored keys: the entry found under a key
`k` after the iteration is the last non-computed, non-spread property
whose stored key is `k`, and an entry present before the iteration is kept
only when no property overwrites it. -/
theorem C1_amended_last_write_keyName (k : String) (props : List SProperty) :
    ∀ d : List (String × SProperty),
      lookupDefined k (processProps props d) =
        orO (lastDefining k props) (lookupDefined k d) := by
  induction props with
  | nil => intro d; rfl
  | cons p rest ih =>
      intro d
      rw [processProps_cons]
      cases hlast : lastDefining k rest with
      | some q =>
          have hcons : lastDefining k (p :: rest) = some q := by
            simp [lastDefining, hlast]
          rw [hcons]
          by_cases hc : p.computed
          · simp [hc, ih, hlast, orO]
          · by_cases hs : p.isSpread
            · simp [hc, hs, ih, hlast, orO]
            · simp [hc, hs, ih, hlast, orO]
      | none =>
          have hcons : lastDefining k (p :: rest) =
              (if ¬ p.computed ∧ ¬ p.isSpread ∧ definedKeyOf p = k
               then some p else none) := by
            simp [lastDefining, hlast]
          rw [hcons]
          by_cases hc : p.computed
          · simp [hc, ih, hlast, orO]
          · by_cases hs : p.isSpread
            · simp [hc, hs, ih, hlast, orO]
            · by_cases hk : definedKeyOf p = k
              · simp [hc, hs, hk, ih, hlast, orO, lookupDefined_insertDefined]
              · simp [hc, hs, hk, ih, hlast, orO, lookupDefined_insertDefined]

/-- Claim C2 (counterexample).  The claim states that a withStyles call
from which no style-definitions object is resolved reports nothing, even
when `definedStyles` holds unused keys from an earlier call.  In the file
`import { css } ...; withStyles(() => ({ a: {} })); withStyles();` the
first call reports `a` unused; the second call has no first argument, so
no object is resolved, yet it runs the diff again over the cumulative
`definedStyles` and reports `a` unused a second time: the whole file
yields two diagnostics where the file truncated before the second call
yields one. -/
theorem C2_counterexample :
    diagnosticsOf [impCss, callA] = .ok [diagA] ∧
    diagnosticsOf
        [impCss, callA,
         .call { requireDetect := none, calleeName := some "withStyles",
                 args := [] }] =
      .ok [diagA, diagA] := by
  refine ⟨rfl, rfl⟩

/-- Claim C2 (amended).  Once the gate is open, a call whose callee is
literally named withStyles runs the defined-vs-used diff even when no
style-definitions object is resolved from it: the call extracts no
definitions (`definedStyles` is unchanged), but it still reports every
key of the current cumulative `definedStyles` that is absent from the
current cumulative `usedStyles`. -/
theorem C2_amended_diff_runs_without_styles_object
    (ev : CallEvent) (s : RuleState)
    (hgate : isCSSFound s = true)
    (hreq : ev.requireDetect = none)
    (hname : ev.calleeName = some "withStyles")
    (hobj : resolvedStylesObj ev.args = .ok none) :
    callHandler ev s = .ok (s, unusedDiff s.definedStyles s.usedStyles) := by
  simp [callHandler, hreq, hgate, hname, extractDefined, hobj]

/-- Witness for C2: a concrete state with an unused defined key `a` and
the bare call `withStyles()`; the call leaves the state unchanged and
re-reports `a`. -/
theorem C2_witness :
    callHandler
        { requireDetect := none, calleeName := some "withStyles", args := [] }
        { cssFromWithStylesName := some "css", usedStyles := [],
          definedStyles := [("a", propA)] } =
      .ok ({ cssFromWithStylesName := some "css", usedStyles := [],
             definedStyles := [("a", propA)] },
           [diagA]) := by
  have h := C2_amended_diff_runs_without_styles_object
    { requireDetect := none, calleeName := some "withStyles", args := [] }
    { cssFromWithStylesName := some "css", usedStyles := [],
      definedStyles := [("a", propA)] }
    (by rfl) (by rfl) (by rfl) (by rfl)
  exact h

/-- Claim C3 (code bug).  The spec states the analyzer never fails on an
unfamiliar shape, naming a return statement with no argument inside the
style function block body; the code evaluates `bodyNode.argument.type`
without a null check, so on the file `import { css } ...;
withStyles(() => { return; })` the handler throws a TypeError and the
traversal aborts instead of silently skipping. -/
theorem C3_crash_on_bare_return :
    analyzeResult
        [impCss,
         .call { requireDetect := none, calleeName := some "withStyles",
                 args := [.arrow (.block [.ret none])] }] =
      .error () := by
  rfl

/-- Claim C4 (counterexample).  The claim states the first successful
detection of either form fixes `styleFunctionLocalName` and no later
detection changes it.  With two call expressions on which the require
detector returns "css1" and then "css2" (e.g. two require calls of the
styling library bound to different names), the recorded name after the
first call is "css1" but the second detection overwrites it with "css2":
the CallExpression handler records the detector result without any
already-found gate. -/
theorem C4_counterexample :
    finalStateOf
        [.call { requireDetect := some "css1", calleeName := none, args := [] }] =
      .ok { cssFromWithStylesName := some "css1", usedStyles := [],
            definedStyles := [] } ∧
    finalStateOf
        [.call { requireDetect := some "css1", calleeName := none, args := [] },
         .call { requireDetect := some "css2", calleeName := none, args := [] }] =
      .ok { cssFromWithStylesName := some "css2", usedStyles := [],
            definedStyles := [] } := by
  refine ⟨rfl, rfl⟩

/-- Claim C4 (amended).  Only the import-declaration detector is gated:
once `cssFromWithStylesName` holds a truthy name, a later
ImportDeclaration visit leaves it unchanged, but every successful
require-call detection overwrites it with the newly detected name,
whatever was recorded before. -/
theorem C4_amended_require_overwrites
    (s : RuleState) (found : Option String) (ev : CallEvent) (n : String)
    (hfound : isCSSFound s = true) (hreq : ev.requireDetect = some n)
    (s' : RuleState) (ds : List Diagnostic)
    (hrun : callHandler ev s = .ok (s', ds)) :
    importHandler found s = s ∧ s'.cssFromWithStylesName = some n := by
  constructor
  · simp [importHandler, hfound]
  · rw [callHandler, hreq] at hrun
    split at hrun
    · cases hrun; rfl
    · split at hrun
      · cases hrun; rfl
      · split at hrun
        · cases hrun
        · cases hrun; rfl

/-- Witness for C4: in a state where "css" was already found, an import
detection of "other" changes nothing, while a require detection of "css2"
on a plain call overwrites the recorded name. -/
theorem C4_witness :
    importHandler (some "other") sOpen = sOpen ∧
    ({ cssFromWithStylesName := some "css2", usedStyles := [],
       definedStyles := [] } : RuleState).cssFromWithStylesName = some "css2" := by
  exact C4_amended_require_overwrites sOpen (some "other")
    { requireDetect := some "css2", calleeName := none, args := [] } "css2"
    (by rfl) (by rfl)
    { cssFromWithStylesName := some "css2", usedStyles := [], definedStyles := [] }
    [] (by rfl)

theorem runEvents_no_detection (events : List VisitEvent) :
    ∀ s : RuleState, s.cssFromWithStylesName = none →
      (∀ e ∈ events, eventDetect e = none) →
      runEvents s events = .ok (s, []) := by
  induction events with
  | nil => intro s _ _; rfl
  | cons e rest ih =>
      intro s hs h
      have he : eventDetect e = none := h e (by simp)
      have hrest : ∀ e' ∈ rest, eventDetect e' = none :=
        fun e' he' => h e' (by simp [he'])
      have hgate : isCSSFound s = false := by
        simp [isCSSFound, hs, truthy]
      cases e with
      | call ev =>
          have hr : ev.requireDetect = none := he
          simp [runEvents, step, callHandler, hr, hgate, ih s hs hrest]
      | memberAccess ev =>
          simp [runEvents, step, memberHandler, hgate, ih s hs hrest]
      | importDecl found =>
          have hf : found = none := he
          simp [runEvents, step, importHandler, hgate, hf, ih s hs hrest]

/-- Claim C5 (confirmed).  For every file in which neither the
import-pattern detector nor the require-pattern detector ever returns a
local name, the analysis produces zero diagnostics, whatever withStyles
calls or member accesses the file contains: the gate never opens and every
handler returns before doing any work. -/
theorem C5_no_detection_no_diagnostics (events : List VisitEvent)
    (h : ∀ e ∈ events, eventDetect e = none) :
    diagnosticsOf events = .ok [] := by
  simp [diagnosticsOf, analyzeResult,
        runEvents_no_detection events initialState rfl h]

/-- Witness for C5: a file with the call `withStyles(() => ({ a: {} }))`
and the access `styles.a` but no detected import or require yields no
diagnostics. -/
theorem C5_witness : diagnosticsOf [callA, memA] = .ok [] :=
  C5_no_detection_no_diagnostics [callA, memA] (by decide)

/-- Claim C6 (counterexample).  The claim states that every Shape A access
adds the key resolved by Key Resolution to `usedStyles`.  The access
`styles[""]` is Shape A and its property, the string literal "", resolves
to the key "" under Key Resolution, but the handler tests the resolved
string for JavaScript truthiness and the empty string is falsy, so nothing
is added. -/
theorem C6_counterexample :
    getBasicIdentifier (.literal "") = some "" ∧
    memberHandler
        { object := .identifier "styles", property := .literal "",
          parent := .otherNode, parentParentIsMember := false } sOpen =
      (.shapeA none, sOpen) := by
  refine ⟨rfl, rfl⟩

/-- Claim C6 (amended).  When the gate is open, a member access whose
object is an identifier literally named styles adds the resolved key to
`usedStyles` whenever Key Resolution yields a nonempty string; when the
resolution is null (in particular for a template literal with
interpolations such as `` styles[`foo${bar}`] ``) or yields the falsy
empty string, nothing is added and the state is unchanged. -/
theorem C6_amended_shapeA_truthy (ev : MemberEvent) (s : RuleState)
    (hgate : isCSSFound s = true) (hobj : ev.object = .identifier "styles") :
    (∀ st : String, getBasicIdentifier ev.property = some st → st ≠ "" →
        memberHandler ev s =
          (.shapeA (some st),
           { s with usedStyles := insertUsed st s.usedStyles })) ∧
    (truthy (getBasicIdentifier ev.property) = false →
        memberHandler ev s = (.shapeA none, s)) := by
  constructor
  · intro st hst hne
    simp [memberHandler, hgate, hobj, isStylesObject, hst, hne]
  · intro htr
    cases hgb : getBasicIdentifier ev.property with
    | none => simp [memberHandler, hgate, hobj, isStylesObject, hgb]
    | some st =>
        have hemp : st = "" := by
          by_contra hne
          simp [hgb, truthy, hne] at htr
        subst hemp
        simp [memberHandler, hgate, hobj, isStylesObject, hgb]

/-- Witness for C6: with the gate open, `styles.foo` adds "foo" and
`` styles[`x${y}`] `` (one interpolation) adds nothing. -/
theorem C6_witness :
    memberHandler
        { object := .identifier "styles", property := .identifier "foo",
          parent := .otherNode, parentParentIsMember := false } sOpen =
      (.shapeA (some "foo"),
       { cssFromWithStylesName := some "css", usedStyles := ["foo"],
         definedStyles := [] }) ∧
    memberHandler
        { object := .identifier "styles", property := .template 1 "x",
          parent := .otherNode, parentParentIsMember := false } sOpen =
      (.shapeA none, sOpen) := by
  constructor
  · exact (C6_amended_shapeA_truthy
      { object := .identifier "styles", property := .identifier "foo",
        parent := .otherNode, parentParentIsMember := false }
      sOpen (by rfl) (by rfl)).1 "foo" (by rfl) (by decide)
  · exact (C6_amended_shapeA_truthy
      { object := .identifier "styles", property := .template 1 "x",
        parent := .otherNode, parentParentIsMember := false }
      sOpen (by rfl) (by rfl)).2 (by rfl)

/-- Claim C7 (counterexample).  The claim states that
`this.props.props.styles.foo` is rejected at the inner `.styles` access
because the parent of the parent of that access is itself a member-access
expression.  At that access (in a statement context) the parent of the
parent is not a member expression at all; the handler rejects earlier, at
the source line 152 check that the object of the object (`this.props`, a
member expression) is not a ThisExpression, and never reaches the
parent-of-parent check. -/
theorem C7_counterexample :
    evShapeBBad.parentParentIsMember = false ∧
    memberHandler evShapeBBad sOpen = (.objectObjectNotThis, sOpen) ∧
    MemberOutcome.objectObjectNotThis ≠ MemberOutcome.parentParentIsMember := by
  refine ⟨rfl, rfl, by decide⟩

/-- Claim C7 (amended).  When the gate is open, the props-mediated chain
`this.props.styles.foo` adds the key foo to `usedStyles`, while
`this.props.props.styles.foo` is rejected at the inner `.styles` access
because at that access the object of the object (`this.props`) is a
member expression rather than a this-expression, leaving the state
unchanged. -/
theorem C7_amended_rejection_reason (s : RuleState)
    (hgate : isCSSFound s = true) :
    memberHandler evShapeB s =
      (.shapeB (some "foo"),
       { s with usedStyles := insertUsed "foo" s.usedStyles }) ∧
    memberHandler evShapeBBad s = (.objectObjectNotThis, s) := by
  constructor
  · simp [memberHandler, hgate, evShapeB, isStylesObject, getBasicIdentifier,
          objectObjectNotThis, truthy, isMemberNode]
  · simp [memberHandler, hgate, evShapeBBad, isStylesObject,
          getBasicIdentifier, objectObjectNotThis]

/-- Witness for C7: both parts at the concrete gate-open state. -/
theorem C7_witness :
    memberHandler evShapeB sOpen =
      (.shapeB (some "foo"),
       { cssFromWithStylesName := some "css", usedStyles := ["foo"],
         definedStyles := [] }) ∧
    memberHandler evShapeBBad sOpen = (.objectObjectNotThis, sOpen) :=
  C7_amended_rejection_reason sOpen (by rfl)

theorem scanBody_eq (stmts : List Stmt) :
    ∀ acc : Option (List SProperty),
      (∀ st ∈ stmts, st ≠ .ret none) →
      scanBody acc stmts = .ok (orO (lastReturnObj stmts) acc) := by
  induction stmts with
  | nil => intro acc _; rfl
  | cons st rest ih =>
      intro acc h
      have hst : st ≠ .ret none := h st (by simp)
      have hrest : ∀ st' ∈ rest, st' ≠ .ret none :=
        fun st' hm => h st' (by simp [hm])
      cases st with
      | ret arg =>
          cases arg with
          | none => exact absurd rfl hst
          | some a =>
              cases a with
              | objectE props =>
                  rw [show scanBody acc (.ret (some (.objectE props)) :: rest) =
                        scanBody (some props) rest from rfl,
                      ih (some props) hrest]
                  cases hl : lastReturnObj rest <;>
                    simp [lastReturnObj, hl, orO]
              | otherA =>
                  rw [show scanBody acc (.ret (some .otherA) :: rest) =
                        scanBody acc rest from rfl,
                      ih acc hrest]
                  cases hl : lastReturnObj rest <;>
                    simp [lastReturnObj, hl, orO]
      | otherS =>
          rw [show scanBody acc (.otherS :: rest) = scanBody acc rest from rfl,
              ih acc hrest]
          cases hl : lastReturnObj rest <;> simp [lastReturnObj, hl, orO]

/-- Claim C8 (confirmed).  When the arrow-function body is a block
statement none of whose top-level return statements is a bare `return;`
(which would instead throw, see C3), the extractor scans every top-level
statement without stopping at the first match, and the resolved
style-definitions object is the argument of the last top-level return
statement whose returned value is an object-literal expression. -/
theorem C8_block_last_return_wins (stmts : List Stmt)
    (h : ∀ st ∈ stmts, st ≠ .ret none) :
    findStylesObj (.block stmts) = .ok (lastReturnObj stmts) := by
  rw [show findStylesObj (.block stmts) = scanBody none stmts from rfl,
      scanBody_eq stmts none h, orO_none_right]

/-- Witness for C8: a block with two object-returning returns separated by
another statement resolves to the second (last) returned object, showing
the scan does not stop at the first match. -/
theorem C8_witness :
    findStylesObj
        (.block [.ret (some (.objectE [propA])), .otherS,
                 .ret (some (.objectE [propB]))]) =
      .ok (some [propB]) := by
  rw [C8_block_last_return_wins
        [.ret (some (.objectE [propA])), .otherS,
         .ret (some (.objectE [propB]))]
        (by decide)]
  rfl

/-- Claim C9 (counterexample).  The claim states that a file importing
css, calling `withStyles(() => ({ a: {}, b: {} }))`, and later in the file
referencing only `styles.a` yields exactly one diagnostic, for key b.  The
tree is walked in document order, so the later `styles.a` access is
visited after the withStyles call; at the call the diff sees an empty
`usedStyles` and reports both a and b — two diagnostics, not one. -/
theorem C9_counterexample :
    diagnosticsOf [impCss, callAB, memA] = .ok [diagA, diagB] := by
  rfl

/-- Claim C9 (amended).  For a file that imports css from the styling
library, references `styles.a` before the call in traversal order, and
then calls `withStyles(() => ({ a: {}, b: {} }))`, the analyzer emits
exactly one diagnostic, anchored at the property defining key b, with
message "Style `b` is unused". -/
theorem C9_amended_usage_before_call :
    diagnosticsOf [impCss, memA, callAB] = .ok [diagB] ∧
    diagB.anchor = propB ∧
    diagB.message = "Style `b` is unused" := by
  refine ⟨rfl, rfl, rfl⟩

/-- Claim C10 (confirmed).  Every member access visited while
`cssFromWithStylesName` is still unset leaves the state unchanged (the
handler exits at the gate), so a Shape A or Shape B usage that precedes
the detection of the styling import contributes nothing to `usedStyles`;
concretely, a file with `styles.a` before the css import and a
`withStyles(() => ({ a: {} }))` call after it still reports `a` unused. -/
theorem C10_gate_closed_drops_usage (ev : MemberEvent) (s : RuleState)
    (h : s.cssFromWithStylesName = none) :
    memberHandler ev s = (.gateClosed, s) ∧
    diagnosticsOf [memA, impCss, callA] = .ok [diagA] := by
  constructor
  · simp [memberHandler, isCSSFound, h, truthy]
  · rfl

/-- Witness for C10: the gate-closed no-op at a concrete member access on
the initial state. -/
theorem C10_witness :
    memberHandler
        { object := .identifier "styles", property := .identifier "a",
          parent := .otherNode, parentParentIsMember := false }
        initialState =
      (.gateClosed, initialState) ∧
    diagnosticsOf [memA, impCss, callA] = .ok [diagA] :=
  C10_gate_closed_drops_usage
    { object := .identifier "styles", property := .identifier "a",
      parent := .otherNode, parentParentIsMember := false }
    initialState rfl

end NoUnusedStyles
